import Mathlib

/-!
Verification development for the `megaeth-rpc-tester` repository.

The Python modules relevant to the verified claims are embedded shallowly:

* `src/rpc_tester/utils.py`      → namespace `Utils`
* `src/rpc_tester/statistics.py` → namespace `StatisticalAnalyzer`
* `src/rpc_tester/core.py`       → namespace `Core`
* `src/rpc_tester/circuit_breaker.py` → namespace `CircuitBreaker`
* `src/rpc_tester/rate_limiter.py`    → namespace `RateLimiter`

Python floats (latencies, rates, wall-clock times) are modelled as exact
rationals `ℚ`; Python ints as `ℤ`/`ℕ`.  Wall-clock time is passed in
explicitly wherever the source reads `time.time()` / `time.perf_counter()`.
-/

/-- `Rat.floor` is the mathematical floor (kernel-computable, unlike `⌊⌋`
through the `FloorRing` instance). -/
theorem ratFloor_eq (q : ℚ) : Rat.floor q = ⌊q⌋ := by
  rw [Rat.floor_def, ← Rat.floor_def']

/-- Kernel-computable ceiling on `ℚ` (Python's `math.ceil`). -/
def ratCeil (q : ℚ) : ℤ := -(Rat.floor (-q))

/-- `ratCeil` is the mathematical ceiling. -/
theorem ratCeil_eq (q : ℚ) : ratCeil q = ⌈q⌉ := by
  rw [ratCeil, ratFloor_eq, Int.floor_neg, neg_neg]

/-- Python's `int(...)` conversion on a real number: truncation toward zero. -/
def pyInt (q : ℚ) : ℤ := if 0 ≤ q then Rat.floor q else -(Rat.floor (-q))

/-- Python list indexing `s[k]` for an index already known to be in range
`-len(s) ≤ k < len(s)`: negative indices count from the end. -/
def pyGet (s : List ℚ) (k : ℤ) : ℚ :=
  if k < 0 then s.getD (s.length - (-k).toNat) 0 else s.getD k.toNat 0

/-- Python's `sorted(data)` on numbers. -/
def sortedList (l : List ℚ) : List ℚ := l.insertionSort (· ≤ ·)

namespace Utils

/-- One cut point of CPython's `statistics.quantiles(data, n=100)`
(default `method='exclusive'`), 1-based cut index `i ∈ [1, 99]`.
Requires `data.length ≥ 2` at the call site (otherwise CPython raises
`StatisticsError`; the caller below checks this).  From CPython
`Lib/statistics.py`:
`m = ld + 1; j = clamp(i*m // n, 1, ld-1); delta = i*m - j*n;`
`(data[j-1]*(n-delta) + data[j]*delta)/n` with `n = 100`. -/
def quantileCut100 (data : List ℚ) (i : ℕ) : ℚ :=
  let s := sortedList data
  let ld := s.length
  let m := ld + 1
  let j := min (max ((i * m) / 100) 1) (ld - 1)
  let delta : ℚ := ((i * m : ℕ) : ℚ) - 100 * (j : ℚ)
  (s.getD (j - 1) 0 * (100 - delta) + s.getD j 0 * delta) / 100

/-- The `except (IndexError, statistics.StatisticsError)` fallback of
`utils.calculate_percentile`:
`sorted_data = sorted(data); index = int(len(sorted_data) * percentile);`
`return sorted_data[min(index, len(sorted_data) - 1)]`. -/
def percentileFallback (data : List ℚ) (percentile : ℚ) : ℚ :=
  let s := sortedList data
  let index := pyInt ((data.length : ℚ) * percentile)
  pyGet s (min index ((data.length : ℤ) - 1))

/-- `utils.calculate_percentile(data, percentile)` with `percentile ∈ [0,1]`:
`statistics.quantiles(data, n=100)[int(percentile * 100) - 1]`, falling back
to the simple index method on `IndexError` (index out of the 99-element cut
list) or `StatisticsError` (fewer than two data points).  A negative 0-based
index `≥ -99` is Python indexing from the end, not an error. -/
def calculate_percentile (data : List ℚ) (percentile : ℚ) : ℚ :=
  if data = [] then 0
  else
    let idx := pyInt (percentile * 100) - 1
    if data.length < 2 then percentileFallback data percentile
    else if 99 ≤ idx then percentileFallback data percentile
    else if idx < -99 then percentileFallback data percentile
    else
      let eff : ℤ := if idx < 0 then 99 + idx else idx
      quantileCut100 data (eff.toNat + 1)

/-- Python's `min(values)` (0 on an empty list; the sources only call it on
non-empty lists). -/
def pyMin : List ℚ → ℚ
  | [] => 0
  | x :: xs => xs.foldl Min.min x

/-- Python's `max(values)` (0 on an empty list; the sources only call it on
non-empty lists). -/
def pyMax : List ℚ → ℚ
  | [] => 0
  | x :: xs => xs.foldl Max.max x

/-- Python's `statistics.median(values)`. -/
def pyMedian (values : List ℚ) : ℚ :=
  let s := sortedList values
  let n := s.length
  if n % 2 = 1 then s.getD (n / 2) 0
  else (s.getD (n / 2 - 1) 0 + s.getD (n / 2) 0) / 2

/-- The dictionary returned by `utils.calculate_statistics`.  The `std_dev`
and `variance` entries involve `math.sqrt` (irrational) and are consumed by
no claim and by no field of `core.EndpointStats`; they are omitted from the
embedding. -/
structure StatsDict where
  count : ℕ
  mean : ℚ
  median : ℚ
  min : ℚ
  max : ℚ
  p50 : ℚ
  p75 : ℚ
  p90 : ℚ
  p95 : ℚ
  p99 : ℚ
deriving DecidableEq, Repr

/-- `utils.calculate_statistics(values)`: the zero dictionary on an empty
list, otherwise count/mean/median/min/max and the percentiles via
`calculate_percentile` at 0.50, 0.75, 0.90, 0.95, 0.99. -/
def calculate_statistics (values : List ℚ) : StatsDict :=
  if values = [] then ⟨0, 0, 0, 0, 0, 0, 0, 0, 0, 0⟩
  else
    { count := values.length
      mean := values.sum / (values.length : ℚ)
      median := pyMedian values
      min := pyMin values
      max := pyMax values
      p50 := calculate_percentile values 0.50
      p75 := calculate_percentile values 0.75
      p90 := calculate_percentile values 0.90
      p95 := calculate_percentile values 0.95
      p99 := calculate_percentile values 0.99 }

end Utils

namespace StatisticalAnalyzer

/-- `statistics.StatisticalAnalyzer.calculate_percentile(data, percentile)`
from `src/rpc_tester/statistics.py` (percentile scale 0–100):
`k = (len(sorted)-1) * (percentile/100); f = floor(k); c = ceil(k);`
`sorted[int(k)]` when `f == c`, otherwise
`sorted[f]*(c-k) + sorted[c]*(k-f)`. -/
def calculate_percentile (data : List ℚ) (percentile : ℚ) : ℚ :=
  if data = [] then 0
  else
    let s := sortedList data
    let k : ℚ := ((s.length : ℚ) - 1) * (percentile / 100)
    let f := Rat.floor k
    let c := ratCeil k
    if f = c then s.getD (pyInt k).toNat 0
    else s.getD f.toNat 0 * ((c : ℚ) - k) + s.getD c.toNat 0 * (k - (f : ℚ))

end StatisticalAnalyzer

/-- The linear-interpolation percentile formula exactly as the spec words it
(§4.6): with the samples sorted and `k = (n-1) * p`,
`sorted[floor(k)] * (1 - frac) + sorted[ceil(k)] * frac` where
`frac = k - floor(k)`.  Stated from the spec for comparison with the code's
percentile functions. -/
def specInterpolatedPercentile (data : List ℚ) (p : ℚ) : ℚ :=
  let s := sortedList data
  let k : ℚ := ((s.length : ℚ) - 1) * p
  let frac : ℚ := k - (Rat.floor k : ℚ)
  s.getD (Rat.floor k).toNat 0 * (1 - frac) + s.getD (ratCeil k).toNat 0 * frac

theorem utils_percentile_012_p95 : Utils.calculate_percentile [0, 10, 20] 0.95 = 28 := by
  have h1 : pyInt (0.95 * 100) = 95 := by norm_num [pyInt, ratFloor_eq]
  have h2 : Int.toNat 94 = 94 := rfl
  simp only [Utils.calculate_percentile, h1]
  norm_num [h2, Utils.quantileCut100, sortedList, List.insertionSort, List.orderedInsert,
    Nat.max_def, Nat.min_def, List.cons_ne_nil, ne_eq]
theorem utils_percentile_012_p99 : Utils.calculate_percentile [0, 10, 20] 0.99 = 148/5 := by
  have h1 : pyInt (0.99 * 100) = 99 := by norm_num [pyInt, ratFloor_eq]
  have h2 : Int.toNat 98 = 98 := rfl
  simp only [Utils.calculate_percentile, h1]
  norm_num [h2, Utils.quantileCut100, sortedList, List.insertionSort, List.orderedInsert,
    Nat.max_def, Nat.min_def, List.cons_ne_nil, ne_eq]
theorem utils_percentile_012_p50 : Utils.calculate_percentile [0, 10, 20] 0.50 = 10 := by
  have h1 : pyInt (0.50 * 100) = 50 := by norm_num [pyInt, ratFloor_eq]
  have h2 : Int.toNat 49 = 49 := rfl
  simp only [Utils.calculate_percentile, h1]
  norm_num [h2, Utils.quantileCut100, sortedList, List.insertionSort, List.orderedInsert,
    Nat.max_def, Nat.min_def, List.cons_ne_nil, ne_eq]
example : Utils.calculate_percentile [0, 10] 0.50 = 5 := by
  have h1 : pyInt (0.50 * 100) = 50 := by norm_num [pyInt, ratFloor_eq]
  have h2 : Int.toNat 49 = 49 := rfl
  simp only [Utils.calculate_percentile, h1]
  norm_num [h2, Utils.quantileCut100, sortedList, List.insertionSort, List.orderedInsert,
    Nat.max_def, Nat.min_def, List.cons_ne_nil, ne_eq]
theorem spec_interpolated_012_p95 : specInterpolatedPercentile [0, 10, 20] 0.95 = 19 := by
  have hf : Rat.floor (19/10 : ℚ) = 1 := by rw [ratFloor_eq]; norm_num [Int.floor_eq_iff]
  have hc : ratCeil (19/10 : ℚ) = 2 := by rw [ratCeil_eq]; norm_num [Int.ceil_eq_iff]
  have h3 : Int.toNat 2 = 2 := rfl
  simp only [specInterpolatedPercentile, sortedList, List.insertionSort, List.orderedInsert]
  norm_num [hf, hc, h3, List.cons_ne_nil, ne_eq]
theorem sa_percentile_012_p95 : StatisticalAnalyzer.calculate_percentile [0, 10, 20] 95 = 19 := by
  have hf : Rat.floor (19/10 : ℚ) = 1 := by rw [ratFloor_eq]; norm_num [Int.floor_eq_iff]
  have hc : ratCeil (19/10 : ℚ) = 2 := by rw [ratCeil_eq]; norm_num [Int.ceil_eq_iff]
  have h3 : Int.toNat 2 = 2 := rfl
  simp only [StatisticalAnalyzer.calculate_percentile, sortedList, List.insertionSort,
    List.orderedInsert]
  norm_num [hf, hc, h3, List.cons_ne_nil, ne_eq]

namespace Core

/-- `core.TestResult` — result of a single RPC test.  `response_data` (the
raw RPC payload) and `timestamp` (a wall-clock `datetime`) are consumed by
no claim and are omitted. -/
structure TestResult where
  url : String
  method : String
  success : Bool
  latency_ms : Option ℚ := none
  error : Option String := none
  status_code : Option ℕ := none
  attempt : ℕ := 1
deriving DecidableEq, Repr

/-- `core.EndpointStats` — statistics for an RPC endpoint. -/
structure EndpointStats where
  url : String
  method : String
  total_requests : ℕ
  successful_requests : ℕ
  failed_requests : ℕ
  success_rate : ℚ
  latencies : List ℚ
  avg_latency : ℚ
  min_latency : ℚ
  max_latency : ℚ
  p50_latency : ℚ
  p95_latency : ℚ
  p99_latency : ℚ
  errors : List String
deriving DecidableEq, Repr

/-- The filter `[r for r in self.results if r.url == url and r.method == method]`
used by both `test_endpoint` and `calculate_statistics`. -/
def matchesEndpoint (url method : String) (r : TestResult) : Bool :=
  decide (r.url = url ∧ r.method = method)

/-- `RPCTester.calculate_statistics(url, method)` over the current
`self.results` list: `None` when no result matches; the all-zero record when
no successful result carries a latency; otherwise counts, success rate and
the latency statistics of `utils.calculate_statistics`. -/
def calculate_statistics (results : List TestResult) (url method : String) :
    Option EndpointStats :=
  let endpoint_results := results.filter (matchesEndpoint url method)
  if endpoint_results = [] then none
  else
    let successful := endpoint_results.filter (fun r => r.success)
    let failed := endpoint_results.filter (fun r => !r.success)
    let latencies := successful.filterMap (fun r => r.latency_ms)
    let errors := failed.filterMap
      (fun r => r.error.bind (fun e => if e = "" then none else some e))
    if latencies = [] then
      some { url := url, method := method
             total_requests := endpoint_results.length
             successful_requests := 0
             failed_requests := failed.length
             success_rate := 0
             latencies := []
             avg_latency := 0, min_latency := 0, max_latency := 0
             p50_latency := 0, p95_latency := 0, p99_latency := 0
             errors := errors }
    else
      let sd := Utils.calculate_statistics latencies
      some { url := url, method := method
             total_requests := endpoint_results.length
             successful_requests := successful.length
             failed_requests := failed.length
             success_rate := (successful.length : ℚ) / (endpoint_results.length : ℚ) * 100
             latencies := latencies
             avg_latency := sd.mean, min_latency := sd.min, max_latency := sd.max
             p50_latency := sd.p50, p95_latency := sd.p95, p99_latency := sd.p99
             errors := errors }

/-- `RPCTester.test_endpoint(url, method)`, with the network dispatch
abstracted: `batch` is the list of per-request `TestResult`s produced by the
semaphore-guarded `_make_rpc_request` calls for this run (task exceptions
already converted to failed results, as the source does).  The method
appends every batch result to `self.results` and returns the filter of the
grown `self.results` on `(url, method)`.  Result: the new `self.results`
and the returned list. -/
def test_endpoint (url method : String) (results : List TestResult)
    (batch : List TestResult) : List TestResult × List TestResult :=
  let results' := results ++ batch
  (results', results'.filter (matchesEndpoint url method))

/-- Body of an HTTP-200 response, as far as `_make_rpc_request` inspects it:
a JSON object with a `"result"`, one with a top-level `"error"`, or a body
that is not valid JSON. -/
inductive RpcBody where
  | result
  | rpcError
  | malformed
deriving DecidableEq, Repr

/-- What one dispatch attempt of `_make_rpc_request` observes: an HTTP
response with a status code and (when the status is 200) a body, a timeout
(`asyncio.TimeoutError`), or a connection error (`aiohttp.ClientError`). -/
inductive AttemptResponse where
  | http (status : ℕ) (body : RpcBody)
  | timeout
  | connError
deriving DecidableEq, Repr

/-- The error classification recorded in `TestResult.error` by
`_make_rpc_request`. -/
inductive ErrKind where
  | noError
  | httpErr (status : ℕ)
  | rpcErr
  | invalidJson
  | timeoutErr
  | connErr
deriving DecidableEq, Repr

/-- The outcome of `_make_rpc_request`, plus the model-level count
`consumed` of dispatch attempts actually made (the source's loop variable
`retry` at exit, plus one). -/
structure RequestOutcome where
  success : Bool
  attempt : ℕ
  status_code : Option ℕ
  errKind : ErrKind
  consumed : ℕ
deriving DecidableEq, Repr

/-- The retry loop `for retry in range(self.config.retry_attempts)` of
`RPCTester._make_rpc_request`; `responses n` is what attempt `n` observes.
Structural recursion on `fuel`, kept equal to `max - retry` by every call
(the `fuel = 0` case is the loop falling through, reachable only for
`max = 0` since every `continue` has checked `retry < max - 1`). -/
def requestLoop (max : ℕ) (responses : ℕ → AttemptResponse) :
    ℕ → ℕ → Option ℕ → ErrKind → RequestOutcome
  | 0, retry, lastStatus, lastErr =>
    -- loop exhausted without `return`/`break` (only possible when `max = 0`):
    -- the final fall-through return
    ⟨false, max, lastStatus, lastErr, retry⟩
  | fuel + 1, retry, lastStatus, lastErr =>
    match responses retry with
    | .http s body =>
      if s = 200 then
        match body with
        | .result => ⟨true, retry + 1, some s, .noError, retry + 1⟩
        | .rpcError => ⟨false, retry + 1, some s, .rpcErr, retry + 1⟩
        | .malformed =>
          -- `InvalidResponseError` is caught by the generic `except Exception`
          if retry < max - 1 then
            requestLoop max responses fuel (retry + 1) (some s) .invalidJson
          else ⟨false, max, some s, .invalidJson, retry + 1⟩
      else if 500 ≤ s ∧ retry < max - 1 then
        requestLoop max responses fuel (retry + 1) (some s) (.httpErr s)
      else ⟨false, max, some s, .httpErr s, retry + 1⟩
    | .timeout =>
      if retry < max - 1 then
        requestLoop max responses fuel (retry + 1) lastStatus .timeoutErr
      else ⟨false, max, lastStatus, .timeoutErr, retry + 1⟩
    | .connError =>
      if retry < max - 1 then
        requestLoop max responses fuel (retry + 1) lastStatus .connErr
      else ⟨false, max, lastStatus, .connErr, retry + 1⟩

/-- `RPCTester._make_rpc_request` with `retry_attempts = max`, run against an
endpoint whose attempt-`n` observation is `responses n`.  Terminal returns
inside the loop report `attempt = retry + 1`; the fall-through return after
the loop reports `attempt = self.config.retry_attempts` and `success=False`. -/
def make_rpc_request (max : ℕ) (responses : ℕ → AttemptResponse) : RequestOutcome :=
  requestLoop max responses max 0 none .noError

example :
    make_rpc_request 3 (fun _ => .http 500 .result) =
      ⟨false, 3, some 500, .httpErr 500, 3⟩ := by decide
example :
    make_rpc_request 3
        (fun n => if n < 2 then .http 500 .result else .http 200 .result) =
      ⟨true, 3, some 200, .noError, 3⟩ := by decide
example :
    make_rpc_request 3 (fun _ => .http 404 .result) =
      ⟨false, 3, some 404, .httpErr 404, 1⟩ := by decide
example :
    make_rpc_request 3 (fun _ => .http 200 .rpcError) =
      ⟨false, 1, some 200, .rpcErr, 1⟩ := by decide

end Core

namespace CircuitBreaker

/-- `circuit_breaker.CircuitState`. -/
inductive CircuitState where
  | closed
  | opened
  | halfOpen
deriving DecidableEq, Repr

/-- `circuit_breaker.CircuitBreakerConfig` (defaults as in the source). -/
structure CircuitBreakerConfig where
  failure_threshold : ℕ := 5
  success_threshold : ℕ := 2
  timeout : ℚ := 60
  half_open_max_calls : ℕ := 3
deriving DecidableEq, Repr

/-- The mutable state of a `circuit_breaker.CircuitBreaker` instance. -/
structure CBState where
  state : CircuitState
  failure_count : ℕ
  success_count : ℕ
  last_failure_time : Option ℚ
  half_open_calls : ℕ
deriving DecidableEq, Repr

/-- The state set up by `CircuitBreaker.__init__`. -/
def CBState.initial : CBState :=
  { state := .closed, failure_count := 0, success_count := 0
    last_failure_time := none, half_open_calls := 0 }

/-- `CircuitBreaker._should_attempt_reset` at wall-clock time `now`. -/
def shouldAttemptReset (cfg : CircuitBreakerConfig) (s : CBState) (now : ℚ) : Bool :=
  match s.last_failure_time with
  | none => false
  | some t => decide (cfg.timeout ≤ now - t)

/-- `CircuitBreaker._check_state` at wall-clock time `now`: lazily moves
Open → HalfOpen (resetting `half_open_calls`) once the timeout elapsed. -/
def checkState (cfg : CircuitBreakerConfig) (s : CBState) (now : ℚ) : CBState :=
  if s.state = .opened ∧ shouldAttemptReset cfg s now then
    { s with state := .halfOpen, half_open_calls := 0 }
  else s

/-- `CircuitBreaker._on_success`. -/
def onSuccess (cfg : CircuitBreakerConfig) (s : CBState) : CBState :=
  let s1 := { s with failure_count := 0 }
  if s1.state = .halfOpen then
    let s2 := { s1 with success_count := s1.success_count + 1 }
    if cfg.success_threshold ≤ s2.success_count then
      { s2 with state := .closed, success_count := 0 }
    else s2
  else s1

/-- `CircuitBreaker._on_failure` at wall-clock time `now`. -/
def onFailure (cfg : CircuitBreakerConfig) (s : CBState) (now : ℚ) : CBState :=
  let s1 := { s with failure_count := s.failure_count + 1, last_failure_time := some now }
  if s1.state = .halfOpen then
    { s1 with state := .opened, success_count := 0 }
  else if cfg.failure_threshold ≤ s1.failure_count then
    { s1 with state := .opened }
  else s1

/-- How one `CircuitBreaker.call` ends: rejected with `CircuitBreakerError`
before the wrapped function runs, or the wrapped function ran and
succeeded/failed (its exception is re-raised after `_on_failure`). -/
inductive CallOutcome where
  | rejected
  | succeeded
  | failed
deriving DecidableEq, Repr

/-- `CircuitBreaker.call(func)` at wall-clock time `now`, where
`funcSucceeds` abstracts whether `await func(...)` would raise: check and
update state, fail fast when Open, enforce the HalfOpen admission cap, then
run the function and account the result. -/
def call (cfg : CircuitBreakerConfig) (s : CBState) (now : ℚ)
    (funcSucceeds : Bool) : CBState × CallOutcome :=
  let s1 := checkState cfg s now
  if s1.state = .opened then (s1, .rejected)
  else if s1.state = .halfOpen ∧ cfg.half_open_max_calls ≤ s1.half_open_calls then
    (s1, .rejected)
  else
    let s2 := if s1.state = .halfOpen then
        { s1 with half_open_calls := s1.half_open_calls + 1 }
      else s1
    if funcSucceeds then (onSuccess cfg s2, .succeeded)
    else (onFailure cfg s2 now, .failed)

/-- `n` consecutive `call`s with a succeeding wrapped function, all at time
`now`. -/
def callSuccN (cfg : CircuitBreakerConfig) (now : ℚ) : ℕ → CBState → CBState
  | 0, s => s
  | n + 1, s => callSuccN cfg now n (call cfg s now true).1

end CircuitBreaker

namespace RateLimiter

/-- The configuration of a `rate_limiter.TokenBucketRateLimiter`:
`self.rate` and `self.burst_size`. -/
structure TokenBucket where
  rate : ℚ
  burst_size : ℤ
deriving DecidableEq, Repr

/-- `TokenBucketRateLimiter.__init__(requests_per_second, burst_size)`:
`self.burst_size = burst_size or int(requests_per_second)` — Python `or`
falls through on `None` **and** on `0`. -/
def mkTokenBucket (requests_per_second : ℚ) (burst_size : Option ℤ) : TokenBucket :=
  { rate := requests_per_second
    burst_size :=
      match burst_size with
      | some b => if b = 0 then pyInt requests_per_second else b
      | none => pyInt requests_per_second }

/-- The mutable state of a token bucket: `self.tokens` and
`self.last_update`. -/
structure BucketState where
  tokens : ℚ
  last_update : ℚ
deriving DecidableEq, Repr

/-- The state after `__init__` at wall-clock time `t0`:
`self.tokens = float(self.burst_size); self.last_update = time.time()`. -/
def initState (b : TokenBucket) (t0 : ℚ) : BucketState :=
  { tokens := (b.burst_size : ℚ), last_update := t0 }

/-- The refill step at the top of the `acquire` loop body:
`self.tokens = min(self.burst_size, self.tokens + elapsed * self.rate);`
`self.last_update = now`. -/
def refill (b : TokenBucket) (s : BucketState) (now : ℚ) : BucketState :=
  { tokens := min (b.burst_size : ℚ) (s.tokens + (now - s.last_update) * b.rate)
    last_update := now }

/-- One full iteration of the `while True` loop of
`TokenBucketRateLimiter.acquire(tokens)` executed at time `now`: refill,
then either deduct and return (`true`) or compute the wait time and sleep
(`false`, state keeps the refilled token count). -/
def tryAcquire (b : TokenBucket) (s : BucketState) (now : ℚ) (tokens : ℕ) :
    BucketState × Bool :=
  let s1 := refill b s now
  if (tokens : ℚ) ≤ s1.tokens then
    ({ s1 with tokens := s1.tokens - (tokens : ℚ) }, true)
  else (s1, false)

/-- `TokenBucketRateLimiter.get_available_tokens()` at time `now`. -/
def get_available_tokens (b : TokenBucket) (s : BucketState) (now : ℚ) : ℚ :=
  min (b.burst_size : ℚ) (s.tokens + (now - s.last_update) * b.rate)

/-- A run of `acquire`-loop iterations: each element of `ops` is the
wall-clock time of the iteration and the `tokens` argument of the pending
`acquire` call.  Returns the final state and the success flag of every
iteration (in order). -/
def runAcquires (b : TokenBucket) (s : BucketState) :
    List (ℚ × ℕ) → BucketState × List Bool
  | [] => (s, [])
  | (now, n) :: rest =>
    let step := tryAcquire b s now n
    let r := runAcquires b step.1 rest
    (r.1, step.2 :: r.2)

/-- Wall-clock monotonicity of an iteration trace: times never run
backwards, starting from the state's `last_update`. -/
def timesMonotone : ℚ → List (ℚ × ℕ) → Prop
  | _, [] => True
  | t, (now, _) :: rest => t ≤ now ∧ timesMonotone now rest

end RateLimiter

namespace Core

/-- Every exit of `requestLoop` has consumed at least `retry` attempts, and
at least `retry + 1` when at least one loop iteration remains. -/
theorem requestLoop_consumed_ge (max : ℕ) (responses : ℕ → AttemptResponse) :
    ∀ fuel retry lastStatus lastErr,
      retry + min fuel 1 ≤ (requestLoop max responses fuel retry lastStatus lastErr).consumed
  | 0, retry, ls, le => by simp [requestLoop]
  | fuel + 1, retry, ls, le => by
    have ih := fun r ls le => requestLoop_consumed_ge max responses fuel r ls le
    simp only [requestLoop]
    rcases hr : responses retry with ⟨s, body⟩ | _ | _ <;> dsimp only
    · by_cases h200 : s = 200
      · rw [if_pos h200]
        rcases body with _ | _ | _ <;> dsimp only
        · omega
        · omega
        · by_cases hlt : retry < max - 1
          · rw [if_pos hlt]
            have := ih (retry + 1) (some s) .invalidJson
            omega
          · rw [if_neg hlt]; dsimp only; omega
      · rw [if_neg h200]
        by_cases hc : 500 ≤ s ∧ retry < max - 1
        · rw [if_pos hc]
          have := ih (retry + 1) (some s) (.httpErr s)
          omega
        · rw [if_neg hc]; dsimp only; omega
    · by_cases hlt : retry < max - 1
      · rw [if_pos hlt]
        have := ih (retry + 1) ls .timeoutErr
        omega
      · rw [if_neg hlt]; dsimp only; omega
    · by_cases hlt : retry < max - 1
      · rw [if_pos hlt]
        have := ih (retry + 1) ls .connErr
        omega
      · rw [if_neg hlt]; dsimp only; omega

/-- Against an endpoint that answers HTTP 500 on every attempt, the loop
runs to exhaustion and returns the fall-through failure. -/
theorem requestLoop_all_http500 (max : ℕ) (responses : ℕ → AttemptResponse)
    (h500 : ∀ n, ∃ b, responses n = .http 500 b) :
    ∀ fuel retry lastStatus lastErr, fuel = max - retry → retry < max →
      requestLoop max responses fuel retry lastStatus lastErr =
        ⟨false, max, some 500, .httpErr 500, max⟩
  | 0, retry, ls, le => by omega
  | fuel + 1, retry, ls, le => by
    intro hfuel hretry
    obtain ⟨b, hb⟩ := h500 retry
    simp only [requestLoop]
    rw [hb]
    dsimp only
    rw [if_neg (by omega : ¬ (500 : ℕ) = 200)]
    by_cases hlt : retry < max - 1
    · rw [if_pos ⟨by omega, hlt⟩]
      exact requestLoop_all_http500 max responses h500 fuel (retry + 1) (some 500)
        (.httpErr 500) (by omega) (by omega)
    · rw [if_neg (by omega : ¬ ((500 : ℕ) ≤ 500 ∧ retry < max - 1))]
      have : retry + 1 = max := by omega
      rw [this]

/-- When the attempt at index `retry` observes a retryable failure (timeout,
connection error, HTTP ≥ 500) and a further iteration is allowed, at least
one more attempt is consumed. -/
theorem requestLoop_consumed_retryable (max : ℕ) (responses : ℕ → AttemptResponse) :
    ∀ fuel retry lastStatus lastErr,
      (responses retry = .timeout ∨ responses retry = .connError ∨
        ∃ s b, responses retry = .http s b ∧ 500 ≤ s) →
      retry < max - 1 → max ≤ fuel + retry →
      retry + 2 ≤ (requestLoop max responses fuel retry lastStatus lastErr).consumed
  | 0, retry, ls, le => by omega
  | fuel + 1, retry, ls, le => by
    intro hresp hlt hfu
    simp only [requestLoop]
    have hfuel1 : 1 ≤ fuel := by omega
    have hmono := fun ls le => requestLoop_consumed_ge max responses fuel (retry + 1) ls le
    rcases hresp with h | h | ⟨s, b, h, hs⟩ <;> rw [h] <;> dsimp only
    · rw [if_pos hlt]
      have := hmono ls .timeoutErr
      omega
    · rw [if_pos hlt]
      have := hmono ls .connErr
      omega
    · rw [if_neg (by omega : ¬ s = 200), if_pos ⟨hs, hlt⟩]
      have := hmono (some s) (.httpErr s)
      omega

end Core

/-- C5: against an endpoint that always answers HTTP 500, `_make_rpc_request`
consumes exactly `retry_attempts` tries and returns `success=False`; against
an endpoint answering HTTP 500 twice and then HTTP 200 with a `"result"`,
with `retry_attempts = 3` it returns `success=True` and `attempt = 3`. -/
theorem c5_retry_policy (max : ℕ) (hmax : 1 ≤ max)
    (responses : ℕ → Core.AttemptResponse)
    (h500 : ∀ n, ∃ b, responses n = .http 500 b)
    (r2 : ℕ → Core.AttemptResponse)
    (h2a : ∃ b, r2 0 = .http 500 b) (h2b : ∃ b, r2 1 = .http 500 b)
    (h2c : r2 2 = .http 200 .result) :
    Core.make_rpc_request max responses =
      ⟨false, max, some 500, .httpErr 500, max⟩ ∧
    Core.make_rpc_request 3 r2 = ⟨true, 3, some 200, .noError, 3⟩ := by
  constructor
  · exact Core.requestLoop_all_http500 max responses h500 max 0 none .noError
      (by omega) (by omega)
  · obtain ⟨b0, hb0⟩ := h2a
    obtain ⟨b1, hb1⟩ := h2b
    simp only [Core.make_rpc_request, Core.requestLoop, hb0, hb1, h2c]
    norm_num

/-- C5 witness. -/
theorem c5_retry_policy_witness :
    Core.make_rpc_request 3 (fun _ => .http 500 .result) =
      ⟨false, 3, some 500, .httpErr 500, 3⟩ ∧
    Core.make_rpc_request 3
        (fun n => if n < 2 then .http 500 .result else .http 200 .result) =
      ⟨true, 3, some 200, .noError, 3⟩ :=
  c5_retry_policy 3 (by decide) _ (fun _ => ⟨.result, rfl⟩) _
    ⟨.result, rfl⟩ ⟨.result, rfl⟩ rfl

/-- C6: a first attempt that yields an application-level outcome — HTTP
status in [400,499], or HTTP 200 whose body carries a top-level `"error"` —
is terminal: the routine performs no further attempt and returns that
outcome with one attempt consumed.  A first attempt with HTTP status ≥ 500,
a timeout, or a connection error is retried (a second attempt is consumed)
whenever `retry_attempts ≥ 2`. -/
theorem c6_terminal_vs_retryable (max : ℕ) (hmax : 2 ≤ max)
    (ra : ℕ → Core.AttemptResponse) (sa : ℕ) (ba : Core.RpcBody)
    (ha : ra 0 = .http sa ba) (hsa : 400 ≤ sa ∧ sa ≤ 499)
    (rb : ℕ → Core.AttemptResponse) (hb : rb 0 = .http 200 .rpcError)
    (rc : ℕ → Core.AttemptResponse)
    (hc : rc 0 = .timeout ∨ rc 0 = .connError ∨
      ∃ s b, rc 0 = .http s b ∧ 500 ≤ s) :
    Core.make_rpc_request max ra = ⟨false, max, some sa, .httpErr sa, 1⟩ ∧
    Core.make_rpc_request max rb = ⟨false, 1, some 200, .rpcErr, 1⟩ ∧
    2 ≤ (Core.make_rpc_request max rc).consumed := by
  obtain ⟨f, hf⟩ : ∃ f, max = f + 2 := ⟨max - 2, by omega⟩
  subst hf
  refine ⟨?_, ?_, ?_⟩
  · show Core.requestLoop (f + 2) ra (f + 2) 0 none .noError = _
    simp only [Core.requestLoop]
    rw [ha]
    dsimp only
    rw [if_neg (by omega : ¬ sa = 200),
      if_neg (by omega : ¬ (500 ≤ sa ∧ 0 < f + 2 - 1))]
  · show Core.requestLoop (f + 2) rb (f + 2) 0 none .noError = _
    simp only [Core.requestLoop]
    rw [hb]
    dsimp only
    rw [if_pos rfl]
  · show 2 ≤ (Core.requestLoop (f + 2) rc (f + 2) 0 none .noError).consumed
    have := Core.requestLoop_consumed_retryable (f + 2) rc (f + 2) 0 none .noError
      hc (by omega) (by omega)
    omega

/-- C6 witness. -/
theorem c6_terminal_vs_retryable_witness :
    Core.make_rpc_request 3 (fun _ => .http 404 .result) =
      ⟨false, 3, some 404, .httpErr 404, 1⟩ ∧
    Core.make_rpc_request 3 (fun _ => .http 200 .rpcError) =
      ⟨false, 1, some 200, .rpcErr, 1⟩ ∧
    2 ≤ (Core.make_rpc_request 3 (fun _ => .timeout)).consumed :=
  c6_terminal_vs_retryable 3 (by decide) _ 404 .result rfl (by decide) _ rfl _
    (Or.inl rfl)

namespace CircuitBreaker

/-- From a fresh HalfOpen state (trial counters zero, `failure_count = fc`),
`k + j = success_threshold` consecutive successes close the circuit, provided
the admission cap does not cut the trial short
(`success_threshold ≤ half_open_max_calls`). -/
theorem callSuccN_closes (cfg : CircuitBreakerConfig) (now : ℚ)
    (hmax : cfg.success_threshold ≤ cfg.half_open_max_calls) :
    ∀ j k fc lft, k + j = cfg.success_threshold → 1 ≤ j →
      callSuccN cfg now j ⟨.halfOpen, fc, k, lft, k⟩ =
        ⟨.closed, 0, 0, lft, cfg.success_threshold⟩
  | 0, k, fc, lft => by omega
  | j + 1, k, fc, lft => by
    intro hsum hj
    have hadm : ¬ (cfg.half_open_max_calls ≤ k) := by omega
    simp only [callSuccN]
    have hstep : (call cfg ⟨.halfOpen, fc, k, lft, k⟩ now true).1 =
        onSuccess cfg ⟨.halfOpen, fc, k, lft, k + 1⟩ := by
      simp [call, checkState, shouldAttemptReset, hadm]
    rw [hstep]
    by_cases hdone : cfg.success_threshold ≤ k + 1
    · have hj0 : j = 0 := by omega
      have hk : k + 1 = cfg.success_threshold := by omega
      subst hj0
      simp only [callSuccN]
      simp [onSuccess, hdone, hk]
    · have hone : onSuccess cfg ⟨.halfOpen, fc, k, lft, k + 1⟩ =
          ⟨.halfOpen, 0, k + 1, lft, k + 1⟩ := by
        simp [onSuccess, hdone]
      rw [hone]
      exact callSuccN_closes cfg now hmax j (k + 1) 0 lft (by omega) (by omega)

end CircuitBreaker

/-- C3: with `failure_threshold = 3`, three consecutive failing calls starting
from the initial Closed state drive the breaker to Open (failure counter 3);
a fourth call made before `timeout` has elapsed since the third failure is
rejected (`CircuitBreakerError` raised before the wrapped function runs) and
leaves the state — in particular the failure and success counters —
unchanged. -/
theorem c3_three_failures_open_then_fast_fail
    (cfg : CircuitBreaker.CircuitBreakerConfig) (h3 : cfg.failure_threshold = 3)
    (t1 t2 t3 t4 : ℚ) (hlt : t4 - t3 < cfg.timeout) (b : Bool) :
    (CircuitBreaker.call cfg
        ((CircuitBreaker.call cfg
          ((CircuitBreaker.call cfg .initial t1 false).1) t2 false).1) t3 false).1 =
      ⟨.opened, 3, 0, some t3, 0⟩ ∧
    CircuitBreaker.call cfg ⟨.opened, 3, 0, some t3, 0⟩ t4 b =
      (⟨.opened, 3, 0, some t3, 0⟩, .rejected) := by
  have hts : ¬ (cfg.timeout ≤ t4 - t3) := not_le.mpr hlt
  constructor
  · have e1 : (CircuitBreaker.call cfg .initial t1 false).1 =
        ⟨.closed, 1, 0, some t1, 0⟩ := by
      simp [CircuitBreaker.call, CircuitBreaker.checkState,
        CircuitBreaker.shouldAttemptReset, CircuitBreaker.onFailure,
        CircuitBreaker.CBState.initial, h3]
    rw [e1]
    have e2 : (CircuitBreaker.call cfg ⟨.closed, 1, 0, some t1, 0⟩ t2 false).1 =
        ⟨.closed, 2, 0, some t2, 0⟩ := by
      simp [CircuitBreaker.call, CircuitBreaker.checkState,
        CircuitBreaker.shouldAttemptReset, CircuitBreaker.onFailure, h3]
    rw [e2]
    simp [CircuitBreaker.call, CircuitBreaker.checkState,
      CircuitBreaker.shouldAttemptReset, CircuitBreaker.onFailure, h3]
  · simp [CircuitBreaker.call, CircuitBreaker.checkState,
      CircuitBreaker.shouldAttemptReset, hts]

/-- C3 witness. -/
theorem c3_three_failures_open_then_fast_fail_witness :
    (1 : ℚ) - 0 < 60 ∧
    ((CircuitBreaker.call ⟨3, 2, 60, 3⟩
        ((CircuitBreaker.call ⟨3, 2, 60, 3⟩
          ((CircuitBreaker.call ⟨3, 2, 60, 3⟩ .initial 0 false).1) 0 false).1) 0 false).1 =
      ⟨.opened, 3, 0, some 0, 0⟩ ∧
    CircuitBreaker.call ⟨3, 2, 60, 3⟩ ⟨.opened, 3, 0, some 0, 0⟩ 1 false =
      (⟨.opened, 3, 0, some 0, 0⟩, .rejected)) :=
  ⟨by norm_num,
    c3_three_failures_open_then_fast_fail ⟨3, 2, 60, 3⟩ rfl 0 0 0 1 (by norm_num) false⟩

/-- C4: (a) for an Open breaker whose `timeout` has elapsed since
`last_failure_time`, the state check performed at the start of the next call
moves it to HalfOpen (resetting the trial-call counter); (b) from a fresh
HalfOpen state, `success_threshold` consecutive successful calls close the
breaker (the admission cap permitting, `success_threshold ≤
half_open_max_calls`); (c) a single failing call in HalfOpen moves it back
to Open and resets the success counter to zero. -/
theorem c4_open_timeout_half_open_recovery
    (cfg : CircuitBreaker.CircuitBreakerConfig)
    (s : CircuitBreaker.CBState) (t now : ℚ)
    (hs : s.state = .opened) (hlft : s.last_failure_time = some t)
    (helapsed : cfg.timeout ≤ now - t)
    (hthr : 1 ≤ cfg.success_threshold)
    (hmax : cfg.success_threshold ≤ cfg.half_open_max_calls)
    (fc : ℕ) (lft : Option ℚ) (now' : ℚ)
    (sf : CircuitBreaker.CBState) (hsf : sf.state = .halfOpen)
    (hadm : sf.half_open_calls < cfg.half_open_max_calls) (now'' : ℚ) :
    CircuitBreaker.checkState cfg s now =
      { s with state := .halfOpen, half_open_calls := 0 } ∧
    CircuitBreaker.callSuccN cfg now' cfg.success_threshold
        ⟨.halfOpen, fc, 0, lft, 0⟩ =
      ⟨.closed, 0, 0, lft, cfg.success_threshold⟩ ∧
    (CircuitBreaker.call cfg sf now'' false).1.state = .opened ∧
    (CircuitBreaker.call cfg sf now'' false).1.success_count = 0 := by
  refine ⟨?_, ?_, ?_⟩
  · simp [CircuitBreaker.checkState, CircuitBreaker.shouldAttemptReset, hs, hlft,
      helapsed]
  · exact CircuitBreaker.callSuccN_closes cfg now' hmax cfg.success_threshold 0 fc lft
      (by omega) hthr
  · have hnadm : ¬ (cfg.half_open_max_calls ≤ sf.half_open_calls) := by omega
    have hstep : (CircuitBreaker.call cfg sf now'' false).1 =
        CircuitBreaker.onFailure cfg
          { sf with half_open_calls := sf.half_open_calls + 1 } now'' := by
      simp [CircuitBreaker.call, CircuitBreaker.checkState,
        CircuitBreaker.shouldAttemptReset, hs, hsf, hnadm]
    rw [hstep]
    simp [CircuitBreaker.onFailure, hsf]

/-- C4 witness. -/
theorem c4_open_timeout_half_open_recovery_witness :
    ((⟨.opened, 3, 0, some 0, 0⟩ : CircuitBreaker.CBState).state = .opened ∧
     (60 : ℚ) ≤ 61 - 0 ∧
     (⟨.halfOpen, 0, 1, none, 1⟩ : CircuitBreaker.CBState).half_open_calls < 3) ∧
    (CircuitBreaker.checkState ⟨3, 2, 60, 3⟩ ⟨.opened, 3, 0, some 0, 0⟩ 61 =
      ⟨.halfOpen, 3, 0, some 0, 0⟩ ∧
    CircuitBreaker.callSuccN ⟨3, 2, 60, 3⟩ 62 2 ⟨.halfOpen, 3, 0, some 0, 0⟩ =
      ⟨.closed, 0, 0, some 0, 2⟩ ∧
    (CircuitBreaker.call ⟨3, 2, 60, 3⟩ ⟨.halfOpen, 0, 1, none, 1⟩ 63 false).1.state =
      .opened ∧
    (CircuitBreaker.call ⟨3, 2, 60, 3⟩ ⟨.halfOpen, 0, 1, none, 1⟩ 63
        false).1.success_count = 0) :=
  ⟨⟨rfl, by norm_num, by norm_num⟩,
    c4_open_timeout_half_open_recovery ⟨3, 2, 60, 3⟩ ⟨.opened, 3, 0, some 0, 0⟩ 0 61
      rfl rfl (by norm_num) (by norm_num) (by norm_num) 3 (some 0) 62
      ⟨.halfOpen, 0, 1, none, 1⟩ rfl (by norm_num) 63⟩

/-- C7: while a breaker is HalfOpen, a call arriving with the trial budget
`half_open_max_calls` already used is rejected with `CircuitBreakerError`
and leaves the state (failure count included) unchanged; an admitted trial
call permanently consumes one unit of the budget (`half_open_calls` grows by
one and is never decremented while HalfOpen), so at most
`half_open_max_calls` calls are ever admitted during one HalfOpen episode. -/
theorem c7_half_open_admission_cap
    (cfg : CircuitBreaker.CircuitBreakerConfig)
    (s : CircuitBreaker.CBState) (now : ℚ) (b : Bool)
    (hs : s.state = .halfOpen) :
    (cfg.half_open_max_calls ≤ s.half_open_calls →
      CircuitBreaker.call cfg s now b = (s, .rejected)) ∧
    (s.half_open_calls < cfg.half_open_max_calls →
      (CircuitBreaker.call cfg s now b).1.half_open_calls =
        s.half_open_calls + 1) := by
  constructor
  · intro hfull
    simp [CircuitBreaker.call, CircuitBreaker.checkState,
      CircuitBreaker.shouldAttemptReset, hs, hfull]
  · intro hadm
    have hnadm : ¬ (cfg.half_open_max_calls ≤ s.half_open_calls) := by omega
    cases b
    · have hstep : (CircuitBreaker.call cfg s now false).1 =
          CircuitBreaker.onFailure cfg
            { s with half_open_calls := s.half_open_calls + 1 } now := by
        simp [CircuitBreaker.call, CircuitBreaker.checkState,
          CircuitBreaker.shouldAttemptReset, hs, hnadm]
      rw [hstep]
      simp [CircuitBreaker.onFailure, hs]
    · have hstep : (CircuitBreaker.call cfg s now true).1 =
          CircuitBreaker.onSuccess cfg
            { s with half_open_calls := s.half_open_calls + 1 } := by
        simp [CircuitBreaker.call, CircuitBreaker.checkState,
          CircuitBreaker.shouldAttemptReset, hs, hnadm]
      rw [hstep]
      by_cases hdone : cfg.success_threshold ≤ s.success_count + 1
      · simp [CircuitBreaker.onSuccess, hs, hdone]
      · simp [CircuitBreaker.onSuccess, hs, hdone]

/-- C7 witness. -/
theorem c7_half_open_admission_cap_witness :
    ((⟨.halfOpen, 0, 0, some 0, 3⟩ : CircuitBreaker.CBState).state = .halfOpen ∧
     (3 : ℕ) ≤ 3 ∧ (2 : ℕ) < 3) ∧
    (CircuitBreaker.call ⟨3, 2, 60, 3⟩ ⟨.halfOpen, 0, 0, some 0, 3⟩ 1 false =
      (⟨.halfOpen, 0, 0, some 0, 3⟩, .rejected)) ∧
    ((CircuitBreaker.call ⟨3, 2, 60, 3⟩ ⟨.halfOpen, 0, 0, some 0, 2⟩ 1
        true).1.half_open_calls = 2 + 1) :=
  ⟨⟨rfl, by norm_num, by norm_num⟩,
    (c7_half_open_admission_cap ⟨3, 2, 60, 3⟩ ⟨.halfOpen, 0, 0, some 0, 3⟩ 1 false
      rfl).1 (by norm_num),
    (c7_half_open_admission_cap ⟨3, 2, 60, 3⟩ ⟨.halfOpen, 0, 0, some 0, 2⟩ 1 true
      rfl).2 (by norm_num)⟩

namespace RateLimiter

/-- One `acquire`-loop iteration preserves `0 ≤ tokens ≤ burst_size` and
advances `last_update` to `now`, given nonnegative rate and capacity and a
wall clock that has not run backwards. -/
theorem tryAcquire_inv (b : TokenBucket) (s : BucketState) (now : ℚ) (n : ℕ)
    (hrate : 0 ≤ b.rate) (hburst : 0 ≤ (b.burst_size : ℚ))
    (h0 : 0 ≤ s.tokens) (hmono : s.last_update ≤ now) :
    0 ≤ (tryAcquire b s now n).1.tokens ∧
    (tryAcquire b s now n).1.tokens ≤ (b.burst_size : ℚ) ∧
    (tryAcquire b s now n).1.last_update = now := by
  have hgain : 0 ≤ (now - s.last_update) * b.rate :=
    mul_nonneg (sub_nonneg.mpr hmono) hrate
  have hre0 : 0 ≤ min (b.burst_size : ℚ) (s.tokens + (now - s.last_update) * b.rate) :=
    le_min hburst (by linarith)
  have hrle : min (b.burst_size : ℚ) (s.tokens + (now - s.last_update) * b.rate) ≤
      (b.burst_size : ℚ) := min_le_left _ _
  have hn : (0 : ℚ) ≤ (n : ℚ) := Nat.cast_nonneg n
  by_cases hok : (n : ℚ) ≤ min (b.burst_size : ℚ)
      (s.tokens + (now - s.last_update) * b.rate)
  · have he : tryAcquire b s now n =
        (⟨min (b.burst_size : ℚ) (s.tokens + (now - s.last_update) * b.rate) - (n : ℚ),
          now⟩, true) := by
      simp [tryAcquire, refill, hok]
    rw [he]
    dsimp only
    exact ⟨by linarith, by linarith, rfl⟩
  · have he : tryAcquire b s now n =
        (⟨min (b.burst_size : ℚ) (s.tokens + (now - s.last_update) * b.rate), now⟩,
          false) := by
      simp [tryAcquire, refill, hok]
    rw [he]
    dsimp only
    exact ⟨hre0, hrle, rfl⟩

/-- The token-count invariant holds after any monotone-time run of
`acquire` iterations. -/
theorem runAcquires_inv (b : TokenBucket)
    (hrate : 0 ≤ b.rate) (hburst : 0 ≤ (b.burst_size : ℚ)) :
    ∀ (ops : List (ℚ × ℕ)) (s : BucketState), 0 ≤ s.tokens →
      s.tokens ≤ (b.burst_size : ℚ) → timesMonotone s.last_update ops →
      0 ≤ (runAcquires b s ops).1.tokens ∧
      (runAcquires b s ops).1.tokens ≤ (b.burst_size : ℚ)
  | [], s => by
    intro h0 h1 _
    simpa [runAcquires] using ⟨h0, h1⟩
  | (now, n) :: rest, s => by
    intro h0 _ hmono
    obtain ⟨hle, hrest⟩ := hmono
    have step := tryAcquire_inv b s now n hrate hburst h0 hle
    simp only [runAcquires]
    exact runAcquires_inv b hrate hburst rest (tryAcquire b s now n).1 step.1 step.2.1
      (by rw [step.2.2]; exact hrest)

end RateLimiter

/-- C8: for every token bucket (nonnegative rate and capacity) and every
monotone-time sequence of `acquire` iterations starting from the freshly
constructed state, the token count stays within `[0, burst_size]`, and so
does the `get_available_tokens` reading at any later instant. -/
theorem c8_token_bucket_token_bounds (b : RateLimiter.TokenBucket)
    (hrate : 0 ≤ b.rate) (hburst : 0 ≤ b.burst_size) (t0 : ℚ)
    (ops : List (ℚ × ℕ)) (hmono : RateLimiter.timesMonotone t0 ops) :
    0 ≤ (RateLimiter.runAcquires b (RateLimiter.initState b t0) ops).1.tokens ∧
    (RateLimiter.runAcquires b (RateLimiter.initState b t0) ops).1.tokens ≤
      (b.burst_size : ℚ) ∧
    ∀ now,
      (RateLimiter.runAcquires b (RateLimiter.initState b t0) ops).1.last_update ≤ now →
      0 ≤ RateLimiter.get_available_tokens b
            (RateLimiter.runAcquires b (RateLimiter.initState b t0) ops).1 now ∧
      RateLimiter.get_available_tokens b
          (RateLimiter.runAcquires b (RateLimiter.initState b t0) ops).1 now ≤
        (b.burst_size : ℚ) := by
  have hburstQ : (0 : ℚ) ≤ (b.burst_size : ℚ) := by exact_mod_cast hburst
  have base := RateLimiter.runAcquires_inv b hrate hburstQ ops
    (RateLimiter.initState b t0) hburstQ le_rfl hmono
  refine ⟨base.1, base.2, ?_⟩
  intro now hnow
  have hgain : 0 ≤ (now - (RateLimiter.runAcquires b (RateLimiter.initState b t0)
      ops).1.last_update) * b.rate := mul_nonneg (sub_nonneg.mpr hnow) hrate
  unfold RateLimiter.get_available_tokens
  constructor
  · exact le_min hburstQ (by linarith [base.1])
  · exact min_le_left _ _

/-- C8 witness. -/
theorem c8_token_bucket_token_bounds_witness :
    ((0 : ℚ) ≤ 2 ∧ (0 : ℤ) ≤ 2 ∧
      RateLimiter.timesMonotone 0 [((0 : ℚ), 1), ((1 : ℚ), 3)]) ∧
    (0 ≤ (RateLimiter.runAcquires ⟨2, 2⟩ (RateLimiter.initState ⟨2, 2⟩ 0)
        [(0, 1), (1, 3)]).1.tokens ∧
    (RateLimiter.runAcquires ⟨2, 2⟩ (RateLimiter.initState ⟨2, 2⟩ 0)
        [(0, 1), (1, 3)]).1.tokens ≤ ((2 : ℤ) : ℚ) ∧
    ∀ now,
      (RateLimiter.runAcquires ⟨2, 2⟩ (RateLimiter.initState ⟨2, 2⟩ 0)
          [(0, 1), (1, 3)]).1.last_update ≤ now →
      0 ≤ RateLimiter.get_available_tokens ⟨2, 2⟩
            (RateLimiter.runAcquires ⟨2, 2⟩ (RateLimiter.initState ⟨2, 2⟩ 0)
              [(0, 1), (1, 3)]).1 now ∧
      RateLimiter.get_available_tokens ⟨2, 2⟩
          (RateLimiter.runAcquires ⟨2, 2⟩ (RateLimiter.initState ⟨2, 2⟩ 0)
            [(0, 1), (1, 3)]).1 now ≤ ((2 : ℤ) : ℚ)) :=
  ⟨⟨by norm_num, by norm_num, by simp [RateLimiter.timesMonotone]⟩,
    c8_token_bucket_token_bounds ⟨2, 2⟩ (by norm_num) (by norm_num) 0
      [(0, 1), (1, 3)] (by simp [RateLimiter.timesMonotone])⟩

namespace RateLimiter

/-- A bucket with zero capacity starves: from a zero-token state, every
monotone-time `acquire` iteration requesting at least one token fails and
the token count stays zero. -/
theorem runAcquires_starved (b : TokenBucket)
    (hburst : b.burst_size = 0) (hrate : 0 ≤ b.rate) :
    ∀ (ops : List (ℚ × ℕ)) (s : BucketState), s.tokens = 0 →
      timesMonotone s.last_update ops → (∀ p ∈ ops, 1 ≤ p.2) →
      (runAcquires b s ops).1.tokens = 0 ∧
      ∀ f ∈ (runAcquires b s ops).2, f = false
  | [], s => by
    intro h0 _ _
    simp [runAcquires, h0]
  | (now, n) :: rest, s => by
    intro h0 hmono hreq
    obtain ⟨hle, hrest⟩ := hmono
    have hgain : 0 ≤ (now - s.last_update) * b.rate :=
      mul_nonneg (sub_nonneg.mpr hle) hrate
    have hmin : min ((b.burst_size : ℚ)) (s.tokens + (now - s.last_update) * b.rate)
        = 0 := by
      rw [hburst, h0]
      push_cast
      exact min_eq_left (by linarith)
    have hn1 : 1 ≤ n := hreq (now, n) (List.mem_cons_self _ _)
    have hngt : ¬ ((n : ℚ) ≤ 0) := by
      push_neg
      exact_mod_cast Nat.lt_of_lt_of_le Nat.zero_lt_one hn1
    have hfail : tryAcquire b s now n = (⟨0, now⟩, false) := by
      simp [tryAcquire, refill, hmin, hngt]
    have ih := runAcquires_starved b hburst hrate rest ⟨0, now⟩ rfl hrest
      (fun p hp => hreq p (List.mem_cons_of_mem _ hp))
    simp only [runAcquires, hfail]
    refine ⟨ih.1, ?_⟩
    intro f hf
    rcases List.mem_cons.mp hf with h | h
    · exact h
    · exact ih.2 f h

end RateLimiter

/-- C10: constructed without an explicit `burst_size`, a token bucket with
`0 < requests_per_second < 1` gets `burst_size = int(requests_per_second) = 0`;
from the fresh state its token count is zero and stays zero through every
monotone-time run of `acquire` iterations, every iteration requesting at
least one token fails (so `acquire(1)` never returns), and
`get_available_tokens` reads 0 at any later instant. -/
theorem c10_subunit_rate_default_burst_starves (rps : ℚ)
    (h0 : 0 < rps) (h1 : rps < 1) (t0 : ℚ) (ops : List (ℚ × ℕ))
    (hmono : RateLimiter.timesMonotone t0 ops) (hreq : ∀ p ∈ ops, 1 ≤ p.2) :
    (RateLimiter.mkTokenBucket rps none).burst_size = 0 ∧
    (RateLimiter.runAcquires (RateLimiter.mkTokenBucket rps none)
        (RateLimiter.initState (RateLimiter.mkTokenBucket rps none) t0) ops).1.tokens
      = 0 ∧
    (∀ f ∈ (RateLimiter.runAcquires (RateLimiter.mkTokenBucket rps none)
        (RateLimiter.initState (RateLimiter.mkTokenBucket rps none) t0) ops).2,
      f = false) ∧
    ∀ now,
      (RateLimiter.runAcquires (RateLimiter.mkTokenBucket rps none)
        (RateLimiter.initState (RateLimiter.mkTokenBucket rps none) t0)
          ops).1.last_update ≤ now →
      RateLimiter.get_available_tokens (RateLimiter.mkTokenBucket rps none)
        (RateLimiter.runAcquires (RateLimiter.mkTokenBucket rps none)
          (RateLimiter.initState (RateLimiter.mkTokenBucket rps none) t0) ops).1 now
        = 0 := by
  have hfloor : Rat.floor rps = 0 := by
    rw [ratFloor_eq]
    exact Int.floor_eq_zero_iff.mpr ⟨h0.le, h1⟩
  have hburst : (RateLimiter.mkTokenBucket rps none).burst_size = 0 := by
    simp [RateLimiter.mkTokenBucket, pyInt, h0.le, hfloor]
  have hrate : 0 ≤ (RateLimiter.mkTokenBucket rps none).rate := by
    simp [RateLimiter.mkTokenBucket]
    exact h0.le
  have hinit : (RateLimiter.initState (RateLimiter.mkTokenBucket rps none) t0).tokens
      = 0 := by
    simp [RateLimiter.initState, hburst]
  have hs := RateLimiter.runAcquires_starved (RateLimiter.mkTokenBucket rps none)
    hburst hrate ops (RateLimiter.initState (RateLimiter.mkTokenBucket rps none) t0)
    hinit hmono hreq
  refine ⟨hburst, hs.1, hs.2, ?_⟩
  intro now hnow
  have hgain : 0 ≤ (now - (RateLimiter.runAcquires (RateLimiter.mkTokenBucket rps none)
      (RateLimiter.initState (RateLimiter.mkTokenBucket rps none) t0)
        ops).1.last_update) * (RateLimiter.mkTokenBucket rps none).rate :=
    mul_nonneg (sub_nonneg.mpr hnow) hrate
  unfold RateLimiter.get_available_tokens
  rw [hburst, hs.1]
  push_cast
  exact min_eq_left (by linarith)

/-- C10 witness. -/
theorem c10_subunit_rate_default_burst_starves_witness :
    ((0 : ℚ) < 1/2 ∧ (1/2 : ℚ) < 1 ∧
      RateLimiter.timesMonotone 0 [((0 : ℚ), 1), ((5 : ℚ), 1)]) ∧
    ((RateLimiter.mkTokenBucket (1/2) none).burst_size = 0 ∧
    (RateLimiter.runAcquires (RateLimiter.mkTokenBucket (1/2) none)
        (RateLimiter.initState (RateLimiter.mkTokenBucket (1/2) none) 0)
        [(0, 1), (5, 1)]).1.tokens = 0 ∧
    (∀ f ∈ (RateLimiter.runAcquires (RateLimiter.mkTokenBucket (1/2) none)
        (RateLimiter.initState (RateLimiter.mkTokenBucket (1/2) none) 0)
        [(0, 1), (5, 1)]).2, f = false) ∧
    ∀ now,
      (RateLimiter.runAcquires (RateLimiter.mkTokenBucket (1/2) none)
        (RateLimiter.initState (RateLimiter.mkTokenBucket (1/2) none) 0)
          [(0, 1), (5, 1)]).1.last_update ≤ now →
      RateLimiter.get_available_tokens (RateLimiter.mkTokenBucket (1/2) none)
        (RateLimiter.runAcquires (RateLimiter.mkTokenBucket (1/2) none)
          (RateLimiter.initState (RateLimiter.mkTokenBucket (1/2) none) 0)
          [(0, 1), (5, 1)]).1 now = 0) :=
  ⟨⟨by norm_num, by norm_num, by simp [RateLimiter.timesMonotone]⟩,
    c10_subunit_rate_default_burst_starves (1/2) (by norm_num) (by norm_num) 0
      [(0, 1), (5, 1)] (by simp [RateLimiter.timesMonotone])
      (by intro p hp; fin_cases hp <;> norm_num)⟩

namespace Core

/-- `matchesEndpoint` holds exactly on results carrying the given url and
method. -/
theorem matchesEndpoint_eq_true {url method : String} {r : TestResult} :
    matchesEndpoint url method r = true ↔ r.url = url ∧ r.method = method := by
  simp [matchesEndpoint]

/-- Whenever some result matches, `calculate_statistics` returns a record
whose `total_requests` is the number of matching results. -/
theorem calculate_statistics_total (results : List TestResult) (url method : String)
    (hne : results.filter (matchesEndpoint url method) ≠ []) :
    ∃ s, calculate_statistics results url method = some s ∧
      s.total_requests = (results.filter (matchesEndpoint url method)).length := by
  simp only [calculate_statistics]
  rw [if_neg hne]
  by_cases hlat : ((results.filter (matchesEndpoint url method)).filter
      (fun r => r.success)).filterMap (fun r => r.latency_ms) = []
  · rw [if_pos hlat]
    exact ⟨_, rfl, rfl⟩
  · rw [if_neg hlat]
    exact ⟨_, rfl, rfl⟩

end Core

/-- C9: `self.results` is append-only across `test_endpoint` runs — every
result returned by a first run for `(url, method)` is also in the list
returned by a second run for the same pair, and `calculate_statistics` after
both runs counts the matching results of the original list and of both
batches in `total_requests`. -/
theorem c9_results_retained_across_runs (url method : String)
    (results b1 b2 : List Core.TestResult)
    (h1 : ∀ r ∈ b1, r.url = url ∧ r.method = method)
    (h2 : ∀ r ∈ b2, r.url = url ∧ r.method = method)
    (hb1 : b1 ≠ []) :
    (∀ r ∈ (Core.test_endpoint url method results b1).2,
      r ∈ (Core.test_endpoint url method
            (Core.test_endpoint url method results b1).1 b2).2) ∧
    ∃ s, Core.calculate_statistics
        (Core.test_endpoint url method
          (Core.test_endpoint url method results b1).1 b2).1 url method = some s ∧
      s.total_requests =
        (results.filter (Core.matchesEndpoint url method)).length +
          b1.length + b2.length := by
  have hf1 : b1.filter (Core.matchesEndpoint url method) = b1 :=
    List.filter_eq_self.mpr fun r hr =>
      Core.matchesEndpoint_eq_true.mpr (h1 r hr)
  have hf2 : b2.filter (Core.matchesEndpoint url method) = b2 :=
    List.filter_eq_self.mpr fun r hr =>
      Core.matchesEndpoint_eq_true.mpr (h2 r hr)
  simp only [Core.test_endpoint]
  constructor
  · intro r hr
    rw [List.append_assoc]
    rw [List.filter_append] at hr ⊢
    rcases List.mem_append.mp hr with h | h
    · exact List.mem_append.mpr (Or.inl h)
    · refine List.mem_append.mpr (Or.inr ?_)
      rw [List.filter_append]
      exact List.mem_append.mpr (Or.inl h)
  · have hne : ((results ++ b1) ++ b2).filter (Core.matchesEndpoint url method) ≠ [] := by
      rw [List.filter_append, List.filter_append, hf1, hf2]
      intro hcon
      rcases List.append_eq_nil.mp hcon with ⟨hl, hr2⟩
      rcases List.append_eq_nil.mp hl with ⟨_, hb⟩
      exact hb1 hb
    obtain ⟨s, hs, hlen⟩ := Core.calculate_statistics_total ((results ++ b1) ++ b2)
      url method hne
    refine ⟨s, hs, ?_⟩
    rw [hlen, List.filter_append, List.filter_append, hf1, hf2,
      List.length_append, List.length_append]

/-- C9 witness. -/
theorem c9_results_retained_across_runs_witness :
    (∀ r ∈ ([⟨"u", "m", true, some 1, none, some 200, 1⟩] : List Core.TestResult),
      r.url = "u" ∧ r.method = "m") ∧
    (∀ r ∈ (Core.test_endpoint "u" "m" []
        [⟨"u", "m", true, some 1, none, some 200, 1⟩]).2,
      r ∈ (Core.test_endpoint "u" "m"
            (Core.test_endpoint "u" "m" []
              [⟨"u", "m", true, some 1, none, some 200, 1⟩]).1
            [⟨"u", "m", false, none, some "boom", none, 1⟩]).2) ∧
    ∃ s, Core.calculate_statistics
        (Core.test_endpoint "u" "m"
          (Core.test_endpoint "u" "m" []
            [⟨"u", "m", true, some 1, none, some 200, 1⟩]).1
          [⟨"u", "m", false, none, some "boom", none, 1⟩]).1 "u" "m" = some s ∧
      s.total_requests =
        (([] : List Core.TestResult).filter (Core.matchesEndpoint "u" "m")).length +
          1 + 1 := by
  have h := c9_results_retained_across_runs "u" "m" []
    [⟨"u", "m", true, some 1, none, some 200, 1⟩]
    [⟨"u", "m", false, none, some "boom", none, 1⟩]
    (by intro r hr; fin_cases hr <;> exact ⟨rfl, rfl⟩)
    (by intro r hr; fin_cases hr <;> exact ⟨rfl, rfl⟩)
    (by simp)
  exact ⟨by intro r hr; fin_cases hr <;> exact ⟨rfl, rfl⟩, h.1, h.2⟩

/-- Four recorded outcomes for endpoint `"u"`, method `"m"`: three successes
with latencies 0, 10, 20 ms and one failure (HTTP 500 after all retries).
The input on which the percentile bug below shows. -/
def demoResults : List Core.TestResult :=
  [⟨"u", "m", true, some 0, none, some 200, 1⟩,
   ⟨"u", "m", true, some 10, none, some 200, 1⟩,
   ⟨"u", "m", true, some 20, none, some 200, 1⟩,
   ⟨"u", "m", false, none, some "HTTP 500", some 500, 3⟩]

/-- `utils.calculate_percentile` on `[0, 10, 20]` at the five percentiles of
`utils.calculate_statistics` (arguments in reduced-fraction form, as they
arise after numeral normalisation). -/
theorem utils_percentile_012_all :
    Utils.calculate_percentile [0, 10, 20] (1/2) = 10 ∧
    Utils.calculate_percentile [0, 10, 20] (3/4) = 20 ∧
    Utils.calculate_percentile [0, 10, 20] (9/10) = 26 ∧
    Utils.calculate_percentile [0, 10, 20] (19/20) = 28 ∧
    Utils.calculate_percentile [0, 10, 20] (99/100) = 148/5 := by
  refine ⟨?_, ?_, ?_, ?_, ?_⟩
  · have h1 : pyInt ((1/2 : ℚ) * 100) = 50 := by norm_num [pyInt, ratFloor_eq]
    have h2 : Int.toNat 49 = 49 := rfl
    simp only [Utils.calculate_percentile, h1]
    norm_num [h2, Utils.quantileCut100, sortedList, List.insertionSort, List.orderedInsert,
      Nat.max_def, Nat.min_def, List.cons_ne_nil, ne_eq]
  · have h1 : pyInt ((3/4 : ℚ) * 100) = 75 := by norm_num [pyInt, ratFloor_eq]
    have h2 : Int.toNat 74 = 74 := rfl
    simp only [Utils.calculate_percentile, h1]
    norm_num [h2, Utils.quantileCut100, sortedList, List.insertionSort, List.orderedInsert,
      Nat.max_def, Nat.min_def, List.cons_ne_nil, ne_eq]
  · have h1 : pyInt ((9/10 : ℚ) * 100) = 90 := by norm_num [pyInt, ratFloor_eq]
    have h2 : Int.toNat 89 = 89 := rfl
    simp only [Utils.calculate_percentile, h1]
    norm_num [h2, Utils.quantileCut100, sortedList, List.insertionSort, List.orderedInsert,
      Nat.max_def, Nat.min_def, List.cons_ne_nil, ne_eq]
  · have h1 : pyInt ((19/20 : ℚ) * 100) = 95 := by norm_num [pyInt, ratFloor_eq]
    have h2 : Int.toNat 94 = 94 := rfl
    simp only [Utils.calculate_percentile, h1]
    norm_num [h2, Utils.quantileCut100, sortedList, List.insertionSort, List.orderedInsert,
      Nat.max_def, Nat.min_def, List.cons_ne_nil, ne_eq]
  · have h1 : pyInt ((99/100 : ℚ) * 100) = 99 := by norm_num [pyInt, ratFloor_eq]
    have h2 : Int.toNat 98 = 98 := rfl
    simp only [Utils.calculate_percentile, h1]
    norm_num [h2, Utils.quantileCut100, sortedList, List.insertionSort, List.orderedInsert,
      Nat.max_def, Nat.min_def, List.cons_ne_nil, ne_eq]

/-- `RPCTester.calculate_statistics` evaluated on `demoResults`: the HTTP-500
failure is counted but contributes no latency; the latency statistics are
those of `[0, 10, 20]`, with `p95 = 28` and `p99 = 29.6` from the
quantiles-based percentile — both above `max = 20`. -/
theorem core_stats_demo :
    Core.calculate_statistics demoResults "u" "m" =
      some ⟨"u", "m", 4, 3, 1, 75, [0, 10, 20], 10, 0, 20, 10, 28, 148/5,
        ["HTTP 500"]⟩ := by
  have hfilter : demoResults.filter (Core.matchesEndpoint "u" "m") = demoResults := by
    simp [demoResults, Core.matchesEndpoint]
  have hsne : ¬ ("HTTP 500" : String) = "" := by decide
  simp only [Core.calculate_statistics, hfilter]
  norm_num [demoResults, Utils.calculate_statistics, Utils.pyMin, Utils.pyMax,
    Utils.pyMedian, utils_percentile_012_all.1, utils_percentile_012_all.2.1,
    utils_percentile_012_all.2.2.1, utils_percentile_012_all.2.2.2.1,
    utils_percentile_012_all.2.2.2.2, sortedList, List.insertionSort,
    List.orderedInsert, max_def, min_def, List.filterMap_cons, List.filterMap_nil,
    List.cons_ne_nil, ne_eq, hsne]

/-- C1: the percentile used by the core statistics path
(`core.calculate_statistics` → `utils.calculate_statistics` →
`utils.calculate_percentile`, which indexes `statistics.quantiles(data,
n=100)`, the exclusive method) does **not** equal the linear-interpolation
formula of the spec: on samples `[0, 10, 20]` at `p = 0.95` the code yields
28 while the interpolation formula (implemented verbatim by
`statistics.StatisticalAnalyzer.calculate_percentile` and asserted by the
repository's own `test_percentile_calculation`) yields 19. -/
theorem c1_core_percentile_diverges_from_interpolation :
    ∃ s, Core.calculate_statistics demoResults "u" "m" = some s ∧
      s.p95_latency = 28 ∧
      specInterpolatedPercentile [0, 10, 20] 0.95 = 19 ∧
      StatisticalAnalyzer.calculate_percentile [0, 10, 20] 95 = 19 ∧
      s.p95_latency ≠ specInterpolatedPercentile [0, 10, 20] 0.95 := by
  refine ⟨_, core_stats_demo, rfl, spec_interpolated_012_p95, sa_percentile_012_p95, ?_⟩
  rw [spec_interpolated_012_p95]
  norm_num

/-- C2: on the finalized statistics for `demoResults` the counting invariant
`successful + failed = total` holds and `p50 ≤ p95 ≤ p99`, but the claimed
`p99 ≤ max` fails: the quantiles-based percentile extrapolates to
`p99 = 29.6` above `max = 20`. -/
theorem c2_p99_exceeds_max_latency :
    ∃ s, Core.calculate_statistics demoResults "u" "m" = some s ∧
      s.successful_requests + s.failed_requests = s.total_requests ∧
      s.p50_latency ≤ s.p95_latency ∧ s.p95_latency ≤ s.p99_latency ∧
      s.max_latency < s.p99_latency :=
  ⟨_, core_stats_demo, rfl, by norm_num, by norm_num, by norm_num⟩

/-- `statistics.StatisticalAnalyzer.calculate_percentile` computes exactly
the spec's linear-interpolation formula (§4.6) on every sample list and
every percentile `P ∈ [0, 100]` (`p = P/100`): the divergence shown in the
C1 theorem is confined to the core path through `utils.calculate_percentile`. -/
theorem sa_percentile_eq_spec_interpolation (data : List ℚ) (p : ℚ) (h0 : 0 ≤ p) :
    StatisticalAnalyzer.calculate_percentile data p =
      specInterpolatedPercentile data (p / 100) := by
  by_cases hne : data = []
  · subst hne
    simp [StatisticalAnalyzer.calculate_percentile, specInterpolatedPercentile,
      sortedList, List.insertionSort]
  · have hlen : 1 ≤ (sortedList data).length := by
      have hperm := List.perm_insertionSort (fun a b : ℚ => a ≤ b) data
      have heq : (sortedList data).length = data.length := hperm.length_eq
      have hpos : 0 < data.length := List.length_pos.mpr hne
      omega
    set s := sortedList data with hs
    set k : ℚ := ((s.length : ℚ) - 1) * (p / 100) with hk
    have hk0 : 0 ≤ k := by
      apply mul_nonneg
      · have : (1 : ℚ) ≤ (s.length : ℚ) := by exact_mod_cast hlen
        linarith
      · positivity
    have hfl : Rat.floor k = ⌊k⌋ := ratFloor_eq k
    have hcl : ratCeil k = ⌈k⌉ := ratCeil_eq k
    have hpy : pyInt k = ⌊k⌋ := by simp [pyInt, hk0, hfl]
    simp only [StatisticalAnalyzer.calculate_percentile, specInterpolatedPercentile,
      if_neg hne, ← hs, ← hk, hfl, hcl, hpy]
    by_cases heq : (⌊k⌋ : ℤ) = ⌈k⌉
    · rw [if_pos heq]
      have hint : (⌊k⌋ : ℚ) = k := by
        have h1 : (⌊k⌋ : ℚ) ≤ k := Int.floor_le k
        have h2 : k ≤ (⌈k⌉ : ℚ) := Int.le_ceil k
        have h3 : ((⌊k⌋ : ℤ) : ℚ) = ((⌈k⌉ : ℤ) : ℚ) := by exact_mod_cast heq
        linarith
      rw [← heq]
      rw [show k - (⌊k⌋ : ℚ) = 0 by linarith]
      ring
    · rw [if_neg heq]
      have hc1 : (⌈k⌉ : ℤ) = ⌊k⌋ + 1 := by
        have h1 : (⌊k⌋ : ℤ) ≤ ⌈k⌉ := Int.floor_le_ceil k
        have h2 : (⌈k⌉ : ℤ) ≤ ⌊k⌋ + 1 := Int.ceil_le_floor_add_one k
        omega
      rw [hc1]
      push_cast
      ring
